import Mathlib

/-!
# Verification of the `mft` NTFS Master File Table parser

Shallow embedding of the Rust sources of the `mft` crate
(src/lib.rs, src/raw.rs, src/block.rs, src/iter.rs,
src/attributes/{mod,file_name}.rs) and proofs about them.

Conventions of the embedding:
* Byte streams are `List Nat` (each element a byte value `< 256`;
  the readers only ever produce values in range because they are
  built from `% 256` arithmetic when needed).
* Machine integers are `Nat`; where Rust wrapping/checked arithmetic
  matters, the reduction is written out explicitly.
* A Rust panic (out-of-bounds index, checked-arithmetic overflow,
  `unreachable!`) is modelled by the distinguished error value
  `Error.panicked`, which is not a variant of the crate's `Error`
  enum but a marker for aborts.
* Fallible functions return `Except Error`.
* Recursion that Rust performs with unbounded loops or call
  recursion is modelled with an explicit fuel parameter; exhausted
  fuel is also reported as `Error.panicked` (for loops that are
  provably bounded the fuel argument is irrelevant).
-/

namespace Mft

/-- Error type mirroring src/error.rs (the human-readable message
payloads are dropped; `panicked` additionally marks Rust panics /
divergence, see the header comment). -/
inductive Error where
  | reader : Error
  | valueRead : Error
  | bufferFill : Error
  | missingBlock : Error
  | missingFileNameAttribute : Error
  | panicked : Error
deriving DecidableEq, Repr

/-! ## Little-endian byte readers (byteorder crate primitives)

A reader is a byte list plus a cursor position.  `readU8` etc. fail
(`Error.valueRead`, as the `read_value!` macro in src/raw.rs maps
short reads) when fewer bytes than requested remain. -/

/-- Read `n` bytes starting at `pos`; `none` if fewer remain. -/
def readBytes (data : List Nat) (pos n : Nat) : Option (List Nat) :=
  if pos + n ≤ data.length then some ((data.drop pos).take n) else none

/-- Little-endian value of a byte list (first byte least significant). -/
def leValue : List Nat → Nat
  | [] => 0
  | b :: bs => b + 256 * leValue bs

/-- Read an unsigned little-endian integer of `n` bytes at `pos`,
returning the value and the advanced position. -/
def readUInt (data : List Nat) (pos n : Nat) : Except Error (Nat × Nat) :=
  match readBytes data pos n with
  | some bs => .ok (leValue bs, pos + n)
  | none => .error .valueRead

/-- `Read::take(n).read_to_end`: reads *up to* `n` bytes from `pos`
without failing (short reads at end-of-file succeed with fewer
bytes).  Returns the bytes and the advanced position. -/
def takeRead (data : List Nat) (pos n : Nat) : List Nat × Nat :=
  let got := min n (data.length - pos)
  ((data.drop pos).take got, pos + got)

/-! ## FileReference (src/raw.rs) -/

/-- 64-bit NTFS file reference: 48-bit entry index, 16-bit sequence. -/
structure FileReference where
  entry : Nat
  sequence : Nat
deriving DecidableEq, Repr

/-- `impl From<u64> for FileReference`: zero bytes 6 and 7 of the
little-endian representation for the entry, read them as the
sequence. -/
def FileReference.fromU64 (value : Nat) : FileReference :=
  { entry := value % 2 ^ 48, sequence := value / 2 ^ 48 % 2 ^ 16 }

/-- `PartialEq` on `FileReference` compares entries only; equality
with a `u64` compares the entry with the number. -/
def FileReference.eqU64 (r : FileReference) (other : Nat) : Bool :=
  r.entry == other

/-! ## Header (src/raw.rs) -/

/-- First 48 bytes of an MFT record (src/raw.rs `struct Header`). -/
structure Header where
  sig : List Nat
  offset_to_fixup : Nat
  num_of_fixup : Nat
  log_sequence_number : Nat
  sequence_number : Nat
  link_count : Nat
  attrs_offset : Nat
  flags : Nat
  used_entry_size : Nat
  total_entry_size : Nat
  base_mft_record : FileReference
  next_attr_id : Nat
deriving DecidableEq, Repr

/-- `Header::is_zeroed`: every field zero except `total_entry_size`
(the commented-out check in src/raw.rs). -/
def Header.is_zeroed (h : Header) : Bool :=
  h.sig == [0, 0, 0, 0]
    && h.offset_to_fixup == 0
    && h.num_of_fixup == 0
    && h.log_sequence_number == 0
    && h.sequence_number == 0
    && h.link_count == 0
    && h.attrs_offset == 0
    && h.flags == 0
    && h.used_entry_size == 0
    && h.base_mft_record.eqU64 0
    && h.next_attr_id == 0

/-- `Header::from_buffer`: sequential little-endian reads from the
start of the given buffer. -/
def Header.from_buffer (buffer : List Nat) : Except Error Header := do
  let p := 0
  let sig ← match readBytes buffer p 4 with
    | some bs => Except.ok bs
    | none => Except.error Error.valueRead
  let p := p + 4
  let (offset_to_fixup, p) ← readUInt buffer p 2
  let (num_of_fixup, p) ← readUInt buffer p 2
  let (log_sequence_number, p) ← readUInt buffer p 8
  let (sequence_number, p) ← readUInt buffer p 2
  let (link_count, p) ← readUInt buffer p 2
  let (attrs_offset, p) ← readUInt buffer p 2
  let (flags, p) ← readUInt buffer p 2
  let (used_entry_size, p) ← readUInt buffer p 4
  let (total_entry_size, p) ← readUInt buffer p 4
  let (record, p) ← readUInt buffer p 8
  let base_mft_record := FileReference.fromU64 record
  let (next_attr_id, _) ← readUInt buffer p 2
  return { sig, offset_to_fixup, num_of_fixup, log_sequence_number,
           sequence_number, link_count, attrs_offset, flags,
           used_entry_size, total_entry_size, base_mft_record,
           next_attr_id }

/-! ## Datetime model (chrono semantics used by src/attributes/mod.rs)

`chrono::NaiveDate::from_ymd(y,m,d).and_hms_nano(h,mi,s,0)` denotes a
point of the proleptic Gregorian calendar; adding a
`Duration::microseconds` shifts it.  We model such a datetime by its
total count of microseconds relative to 1970-01-01T00:00:00Z, using
the standard civil-days algorithm for the calendar part. -/

/-- Days from 1970-01-01 to the civil date `y-m-d` (proleptic
Gregorian, Howard Hinnant's `days_from_civil` algorithm). -/
def daysFromCivil (y m d : Int) : Int :=
  let y := if m ≤ 2 then y - 1 else y
  let era := (if 0 ≤ y then y else y - 399) / 400
  let yoe := y - era * 400
  let doy := (153 * (if 2 < m then m - 3 else m + 9) + 2) / 5 + d - 1
  let doe := yoe * 365 + yoe / 4 - yoe / 100 + doy
  era * 146097 + doe - 719468

/-- A UTC datetime, as microseconds since 1970-01-01T00:00:00Z. -/
structure DateTime where
  micros : Int
deriving DecidableEq, Repr

/-- The datetime `y-m-d h:mi:s` (UTC). -/
def DateTime.ofYmdHms (y m d h mi s : Int) : DateTime :=
  ⟨daysFromCivil y m d * 86400000000 + (h * 3600 + mi * 60 + s) * 1000000⟩

/-- Add a number of microseconds (`chrono::Duration::microseconds`). -/
def DateTime.addMicros (t : DateTime) (us : Int) : DateTime :=
  ⟨t.micros + us⟩

/-- `convert_u64_to_datetime` (src/attributes/mod.rs): from
1601-01-01T00:00:00Z add `timestamp / 10` microseconds (the `t / 10`
is truncating `u64` division; the cast of `t / 10` to `i64` is exact
for every `u64` input since `2^64 / 10 < 2^63`). -/
def convert_u64_to_datetime (timestamp : Nat) : DateTime :=
  (DateTime.ofYmdHms 1601 1 1 0 0 0).addMicros ((timestamp / 10 : Nat) : Int)

/-! ## Fixup application (src/raw.rs, duplicated in
`Entry::get_entry_bytes` and `Entry::from_reader`)

`buffer[a..b].to_vec()` panics when the range is ill-formed, and
`buffer[i] = v` panics when `i` is out of bounds; both panics are
modelled as `none`. -/

/-- Rust slice `buffer[a..b]`: `none` models the panic on an
ill-formed or out-of-bounds range. -/
def sliceRange (buffer : List Nat) (a b : Nat) : Option (List Nat) :=
  if a ≤ b ∧ b ≤ buffer.length then some ((buffer.drop a).take (b - a))
  else none

/-- Rust indexed store `l[i] = v`: `none` models the out-of-bounds
panic. -/
def listStore (l : List Nat) (i v : Nat) : Option (List Nat) :=
  if i < l.length then some (l.set i v) else none

/-- Rust indexed load `l[i]`: `none` models the out-of-bounds
panic. -/
def listLoad (l : List Nat) (i : Nat) : Option Nat :=
  l.get? i

/-- The fixup replacement loop
`for i in 1..(fix_up.len() / 2) { ... }` of src/raw.rs, with `rem`
iterations left and `i` the current loop counter.  Each iteration
overwrites `buffer[i*512 - 2 .. i*512]` with `fix_up[2*i .. 2*i+2]`
and the loop breaks when `i*512 - 2 > buffer.len()`. -/
def fixupGo (fixUp : List Nat) : Nat → Nat → List Nat → Option (List Nat)
  | _, 0, buffer => some buffer
  | i, rem + 1, buffer =>
    let replaceOffset := i * 512 - 2
    let fixUpOffset := i * 2
    if replaceOffset > buffer.length then some buffer
    else do
      let v0 ← listLoad fixUp fixUpOffset
      let b1 ← listStore buffer replaceOffset v0
      let v1 ← listLoad fixUp (fixUpOffset + 1)
      let b2 ← listStore b1 (replaceOffset + 1) v1
      fixupGo fixUp (i + 1) rem b2

/-- Extract the fixup array and run the replacement loop (the block
common to `Entry::get_entry_bytes` and `Entry::from_reader`).  The
index arithmetic `offset_to_fixup + num_of_fixup * 2 + 2` is `u16`
arithmetic in Rust; its checked overflow is modelled as a panic. -/
def applyFixup (header : Header) (buffer : List Nat) : Option (List Nat) :=
  if header.offset_to_fixup + header.num_of_fixup * 2 + 2 ≥ 2 ^ 16 then none
  else do
    let fixUp ← sliceRange buffer header.offset_to_fixup
      (header.offset_to_fixup + header.num_of_fixup * 2 + 2)
    fixupGo fixUp 1 (fixUp.length / 2 - 1) buffer

/-! ## Attributes (src/raw.rs `Attribute`, `AttributeData`) -/

/-- Payload of an attribute: resident or non-resident form
(src/raw.rs `enum AttributeData`). -/
inductive AttributeData where
  | resident (data_size : Nat) (data_offset : Nat) (indexed_flag : Nat)
      (padding : Nat) : AttributeData
  | nonResident (lowest_vcn highest_vcn : Nat) (data_run_offset : Nat)
      (compression_unit_size : Nat) (padding : Nat)
      (allocated_size data_size initialized_size : Nat)
      (compressed_size : Option Nat) : AttributeData
deriving DecidableEq, Repr

/-- One attribute of a record (src/raw.rs `struct Attribute`). -/
structure Attribute where
  offset : Nat
  type_code : Nat
  record_len : Nat
  form_code : Nat
  name_len : Nat
  name_offset : Nat
  name : Option String
  flags : Nat
  instance_ : Nat
  data : AttributeData
deriving DecidableEq, Repr

/-- `Attribute::is_valid_type_code`: membership in the static table
of NTFS attribute type codes. -/
def Attribute.is_valid_type_code (type_code : Nat) : Bool :=
  [0x0, 0x10, 0x20, 0x30, 0x40, 0x50, 0x60, 0x70, 0x80, 0x90, 0xa0,
   0xb0, 0xc0, 0xd0, 0xe0, 0xf0, 0x100, 0x1000].contains type_code

/-- Read `n` UTF-16LE code units and build a `String` the way the
source does: each unit is narrowed `c as u8 as char`
(src/raw.rs / src/attributes/file_name.rs name loops). -/
def readNarrowedName (data : List Nat) (pos n : Nat) :
    Except Error (String × Nat) :=
  match n with
  | 0 => .ok ("", pos)
  | n + 1 => do
    let (c, pos) ← readUInt data pos 2
    let (s, pos) ← readNarrowedName data pos n
    return (String.mk (Char.ofNat (c % 256) :: s.data), pos)

/-- `Attribute::from_buffer`: decode one attribute at `offset` within
the (fixed-up) record buffer; `ok none` when the type code is not a
valid attribute code.  The `unreachable!()` for a form code other
than 0 or 1 is a panic. -/
def Attribute.from_buffer (buffer : List Nat) (offset : Nat) :
    Except Error (Option Attribute) := do
  let (type_code, p) ← readUInt buffer offset 4
  if ¬ Attribute.is_valid_type_code type_code then return none
  let (record_len, p) ← readUInt buffer p 4
  let (form_code, p) ← readUInt buffer p 1
  let (name_len, p) ← readUInt buffer p 1
  let (name_offset, p) ← readUInt buffer p 2
  let (flags, p) ← readUInt buffer p 2
  let (instance_, p) ← readUInt buffer p 2
  let data ← match form_code with
    | 0 => do
      let (data_size, p) ← readUInt buffer p 4
      let (data_offset, p) ← readUInt buffer p 2
      let (indexed_flag, p) ← readUInt buffer p 1
      let (padding, _) ← readUInt buffer p 1
      Except.ok (AttributeData.resident data_size data_offset indexed_flag
        padding)
    | 1 => do
      let (lowest_vcn, p) ← readUInt buffer p 8
      let (highest_vcn, p) ← readUInt buffer p 8
      let (data_run_offset, p) ← readUInt buffer p 2
      let (compression_unit_size, p) ← readUInt buffer p 2
      let (padding, p) ← readUInt buffer p 4
      let (allocated_size, p) ← readUInt buffer p 8
      let (data_size, p) ← readUInt buffer p 8
      let (initialized_size, p) ← readUInt buffer p 8
      let compressed_size ← if 0 < compression_unit_size then do
          let (c, _) ← readUInt buffer p 8
          pure (some c)
        else pure none
      Except.ok (AttributeData.nonResident lowest_vcn highest_vcn
        data_run_offset compression_unit_size padding allocated_size
        data_size initialized_size compressed_size)
    | _ => Except.error Error.panicked
  let (name, _) ← if 0 < name_len then do
      let (s, q) ← readNarrowedName buffer (offset + name_offset) name_len
      pure (some s, q)
    else pure ((none : Option String), p)
  return some { offset, type_code, record_len, form_code, name_len,
                name_offset, name, flags, instance_, data }

/-! ## Entry (src/raw.rs `Entry`) -/

/-- A parsed MFT record (src/raw.rs `struct Entry`). -/
structure Entry where
  offset : Nat
  entry_n : Nat
  header : Header
  attributes : List Attribute
deriving DecidableEq, Repr

/-- `MFT_RECORD_SIZE` (src/lib.rs). -/
def MFT_RECORD_SIZE : Nat := 1024

/-- The attribute walk of `Entry::from_reader`: repeatedly decode an
attribute at `offset`, stop on an invalid type code, advance by
`record_len`.  A zero `record_len` loops forever in Rust; the fuel
exhaustion marker `panicked` stands for that divergence. -/
def attrWalk (buffer : List Nat) : Nat → Nat → Except Error (List Attribute)
  | 0, _ => .error .panicked
  | fuel + 1, offset => do
    match ← Attribute.from_buffer buffer offset with
    | none => return []
    | some attr =>
      if ¬ Attribute.is_valid_type_code attr.type_code then return []
      else do
        let rest ← attrWalk buffer fuel (offset + attr.record_len)
        return attr :: rest

/-- `(file_offset, entry_n)` computed from the previous entry at the
top of `Entry::from_reader`. -/
def fileOffsetOf (prev : Option Entry) : Nat :=
  match prev with
  | some p =>
    p.offset + (if p.header.total_entry_size = 0 then 1024
                else p.header.total_entry_size)
  | none => 0

/-- Successor entry number from the previous entry. -/
def entryNOf (prev : Option Entry) : Nat :=
  match prev with
  | some p => p.entry_n + 1
  | none => 0

/-- `Entry::get_entry_bytes`: seek to `offset`, read the header, read
the rest of the record (1024 bytes for a zeroed header, otherwise
`total_entry_size` with fixups applied), returning the record bytes
and the final reader position.  `total_entry_size as u64 - 48` is
checked `u64` subtraction when `total_entry_size < 48` (panic). -/
def Entry.get_entry_bytes (data : List Nat) (offset : Nat) :
    Except Error (List Nat) × Nat :=
  let pos := offset
  let (buffer, pos) := takeRead data pos 48
  match Header.from_buffer buffer with
  | .error e => (.error e, pos)
  | .ok header =>
    if header.is_zeroed then
      let (restBytes, pos) := takeRead data pos (MFT_RECORD_SIZE - 48)
      (.ok (buffer ++ restBytes), pos)
    else
    if header.total_entry_size < 48 then (.error .panicked, pos)
    else
      let (restBytes, pos) := takeRead data pos (header.total_entry_size - 48)
      let buffer := buffer ++ restBytes
      match applyFixup header buffer with
      | some fixed => (.ok fixed, pos)
      | none => (.error .panicked, pos)

/-- `Entry::from_reader`: parse the record whose bytes start at the
current reader position `pos`, with bookkeeping offsets derived from
`prev`.  Returns the entry and the final reader position. -/
def Entry.from_reader (fuel : Nat) (data : List Nat) (pos : Nat)
    (prev : Option Entry) : Except Error (Entry × Nat) := do
  let file_offset := fileOffsetOf prev
  let entry_n := entryNOf prev
  let (buffer, pos) := takeRead data pos 48
  let header ← Header.from_buffer buffer
  if header.is_zeroed then
    return ({ offset := file_offset, entry_n, header, attributes := [] },
            file_offset + MFT_RECORD_SIZE)
  else
  if header.total_entry_size < 48 then Except.error Error.panicked
  else do
    let (restBytes, pos) := takeRead data pos (header.total_entry_size - 48)
    let buffer := buffer ++ restBytes
    match applyFixup header buffer with
    | none => Except.error Error.panicked
    | some fixed => do
      let attributes ← attrWalk fixed fuel header.attrs_offset
      return ({ offset := file_offset, entry_n, header, attributes }, pos)

/-! ## Block index (src/block.rs) -/

/-- Tag of a section pointer (src/block.rs `enum BlockType`). -/
inductive BlockType where
  | entry
  | standardInformation
  | attributeList
  | fileName
  | objectId
  | securityDescriptor
  | volumeName
  | volumeInformation
  | data
  | indexRoot
  | indexAllocation
  | bitmap
  | reparsePoint
  | eaInformation
  | ea
  | propertySet
  | loggedUtilityStream
  | end_
  | unknownAttribute
  | zoneIdentifier
deriving DecidableEq, Repr

/-- `BlockType::from_attribute_type_code`. -/
def BlockType.from_attribute_type_code (type_code : Nat) : BlockType :=
  if type_code = 0x10 then .standardInformation
  else if type_code = 0x20 then .attributeList
  else if type_code = 0x30 then .fileName
  else if type_code = 0x40 then .objectId
  else if type_code = 0x50 then .securityDescriptor
  else if type_code = 0x60 then .volumeName
  else if type_code = 0x70 then .volumeInformation
  else if type_code = 0x80 then .data
  else if type_code = 0x90 then .indexRoot
  else if type_code = 0xA0 then .indexAllocation
  else if type_code = 0xB0 then .bitmap
  else if type_code = 0xC0 then .reparsePoint
  else if type_code = 0xD0 then .eaInformation
  else if type_code = 0xE0 then .ea
  else if type_code = 0xF0 then .propertySet
  else if type_code = 0x100 then .loggedUtilityStream
  else if type_code = 0xFFFFFFFF then .end_
  else .unknownAttribute

/-- Projection of one attribute into the block index
(src/block.rs `struct SectionPointer`). -/
structure SectionPointer where
  block_type : BlockType
  is_resident : Bool
  attribute_id : Option Nat
  offset : Nat
  size : Nat
deriving DecidableEq, Repr

/-- Per-record collection of section pointers
(src/block.rs `struct Block`). -/
structure Block where
  blocks : List SectionPointer
  entry_id : Nat
deriving DecidableEq, Repr

/-- The section pointers contributed by one attribute in
`Block::new_with_entry`: the attribute pointer, plus a second
`ZoneIdentifier` pointer for a `Data` attribute named
`"Zone.Identifier"`. -/
def sectionPointersOfAttribute (entryOffset : Nat) (attr : Attribute) :
    List SectionPointer :=
  let data_offset := entryOffset + attr.offset +
    (match attr.data with
     | .resident _ off _ _ => off
     | .nonResident _ _ _ _ _ _ _ _ _ => 16)
  let data_size := match attr.data with
    | .resident size _ _ _ => size
    | .nonResident _ _ _ _ _ _ size _ _ => size
  let is_resident := match attr.data with
    | .resident _ _ _ _ => true
    | .nonResident _ _ _ _ _ _ _ _ _ => false
  let main : SectionPointer :=
    { block_type := BlockType.from_attribute_type_code attr.type_code,
      is_resident, attribute_id := some attr.instance_,
      offset := data_offset, size := data_size }
  if BlockType.from_attribute_type_code attr.type_code = .data
      ∧ attr.name = some "Zone.Identifier" then
    [main,
     { block_type := .zoneIdentifier, is_resident, attribute_id := none,
       offset := data_offset, size := data_size }]
  else [main]

/-- `Block::new_with_entry`: the `Entry` pointer followed by one (or
two, for `Zone.Identifier` data streams) pointer per attribute.  The
reader argument of the source is unused there and omitted. -/
def Block.new_with_entry (entry : Entry) (record_n : Nat) :
    Except Error Block :=
  .ok { blocks :=
          { block_type := .entry, is_resident := true,
            attribute_id := none, offset := entry.offset,
            size := entry.header.total_entry_size } ::
          (entry.attributes.map
            (sectionPointersOfAttribute entry.offset)).flatten,
        entry_id := record_n }

/-! ## Parser construction (src/lib.rs) -/

/-- Abstract regex predicate: the exclusion hooks of
`ParserSettings` are consumed only through `Regex::is_match`, so a
regex is embedded as its match predicate on strings. -/
def RegexPred : Type := String → Bool

/-- `ParserSettings` (src/lib.rs). -/
structure ParserSettings where
  drive_char : Option Char
  path_exclusion_regex : Option RegexPred
  filename_exclusion_regex : Option RegexPred

/-- The path cache `path_parts: HashMap<u64, Option<(String, u64)>>`
as an association list: `insert` prepends, `lookup` takes the first
binding. -/
def Cache : Type := List (Nat × Option (String × Nat))

/-- HashMap lookup. -/
def Cache.lookup (c : Cache) (k : Nat) : Option (Option (String × Nat)) :=
  (List.find? (fun e => e.1 == k) c).map (·.2)

/-- HashMap insert (first binding shadows older ones). -/
def Cache.insert (c : Cache) (k : Nat) (v : Option (String × Nat)) : Cache :=
  (k, v) :: c

/-- Parser state (src/lib.rs `struct Parser`): the open file is
represented by its immutable content (passed separately where
needed) and the buffered reader by its cursor `pos`. -/
structure Parser where
  pos : Nat
  size : Nat
  records : Nat
  blocks : List Block
  path_parts : Cache
  settings : ParserSettings

/-- The loop body of `Parser::get_blocks`, iterating
`record_n in 0..records` with the previous entry threaded through to
advance the file offset.  Recursion is on the number of remaining
records. -/
def getBlocksGo (fuel : Nat) (data : List Nat) :
    Nat → Nat → Option Entry → Nat → Except Error (List Block × Nat)
  | 0, pos, _, _ => .ok ([], pos)
  | remaining + 1, pos, prev, record_n => do
    let (entry, pos) ← Entry.from_reader fuel data pos prev
    let block ← Block.new_with_entry entry record_n
    let (rest, pos) ← getBlocksGo fuel data remaining pos (some entry)
      (record_n + 1)
    return (block :: rest, pos)

/-- `Parser::get_blocks`: one streaming pass over the whole file. -/
def Parser.get_blocks (fuel : Nat) (data : List Nat) (records : Nat) :
    Except Error (List Block × Nat) :=
  getBlocksGo fuel data records 0 none 0

/-- `Parser::with_settings`: size from the file metadata, record
count `size / 1024`, block index from the streaming pass. -/
def Parser.with_settings (fuel : Nat) (data : List Nat)
    (settings : ParserSettings) : Except Error Parser := do
  let size := data.length
  let records := size / MFT_RECORD_SIZE
  let (blocks, pos) ← Parser.get_blocks fuel data records
  return { pos, size, records, blocks, path_parts := [], settings }

/-! ## FileName attribute (src/attributes/file_name.rs) -/

/-- Decoded `$FILE_NAME` attribute
(src/attributes/file_name.rs `struct FileName`). -/
structure FileName where
  parent_file_reference : FileReference
  creation_time : DateTime
  modification_time : DateTime
  mft_modification_time : DateTime
  access_time : DateTime
  allocated_size : Nat
  real_size : Nat
  flags : Nat
  reparse_value : Nat
  name_length : Nat
  name_space : Nat
  name : String
deriving DecidableEq, Repr

/-- `FileName::from_reader`: fixed-layout little-endian reads from
the cursor position, then `name_length` narrowed UTF-16 units. -/
def FileName.from_reader (buffer : List Nat) (pos : Nat) :
    Except Error (FileName × Nat) := do
  let (parentRaw, pos) ← readUInt buffer pos 8
  let parent_file_reference := FileReference.fromU64 parentRaw
  let (creation_time, pos) ← readUInt buffer pos 8
  let (modification_time, pos) ← readUInt buffer pos 8
  let (mft_modification_time, pos) ← readUInt buffer pos 8
  let (access_time, pos) ← readUInt buffer pos 8
  let (allocated_size, pos) ← readUInt buffer pos 8
  let (real_size, pos) ← readUInt buffer pos 8
  let (flags, pos) ← readUInt buffer pos 4
  let (reparse_value, pos) ← readUInt buffer pos 4
  let (name_length, pos) ← readUInt buffer pos 1
  let (name_space, pos) ← readUInt buffer pos 1
  let (name, pos) ← readNarrowedName buffer pos name_length
  return ({ parent_file_reference,
            creation_time := convert_u64_to_datetime creation_time,
            modification_time := convert_u64_to_datetime modification_time,
            mft_modification_time :=
              convert_u64_to_datetime mft_modification_time,
            access_time := convert_u64_to_datetime access_time,
            allocated_size, real_size, flags, reparse_value,
            name_length, name_space, name }, pos)

/-! ## AttributeList attribute

The source file src/attributes/attributes_list.rs is declared by
src/attributes/mod.rs but is not part of the sources available here;
the definitions below are modelled from the specification. -/

/-- Modelled from the spec: an `AttributeListItem` is "a pointer from
one record to an attribute that lives in another (extension) record"
and "contains type code, attribute instance id, and the extension
record's `FileReference`" (the decoder itself is in the missing
src/attributes/attributes_list.rs). -/
structure AttributeListItem where
  type_code : Nat
  instance_ : Nat
  reference : FileReference
deriving DecidableEq, Repr

/-- Modelled from the spec: `AttributeList::from_reader(reader, size)`
"decodes a sequence of items within `size` bytes"; each item carries
a type code, an instance id and a `FileReference`.  The exact on-disk
stride is in the missing source file; the model reads the three
fields consecutively (14 bytes per item) until the byte budget is
spent. -/
def attributeListItemsGo (buffer : List Nat) :
    Nat → Nat → Nat → Except Error (List AttributeListItem)
  | 0, _, _ => .ok []
  | fuel + 1, pos, budget =>
    -- Budget-bounded item loop; `fuel` only bounds the iteration
    -- count (every iteration consumes 14 bytes of budget).
    if budget < 14 then .ok []
    else do
      let (type_code, pos) ← readUInt buffer pos 4
      let (instance_, pos) ← readUInt buffer pos 2
      let (refRaw, pos) ← readUInt buffer pos 8
      let rest ← attributeListItemsGo buffer fuel pos (budget - 14)
      return { type_code, instance_,
               reference := FileReference.fromU64 refRaw } :: rest

/-- Modelled from the spec: entry point of the item decoder (see
`attributeListItemsGo`). -/
def AttributeList.from_reader (buffer : List Nat) (pos : Nat)
    (size : Nat) : Except Error (List AttributeListItem) :=
  attributeListItemsGo buffer size pos size

/-- Modelled from the spec: `resolve_to_blocks(blocks)` "yields pairs
`(resolved_entry_id, section_pointer)` pointing into the block
index": for each item, the `SectionPointer` of the referenced
extension record whose attribute id and type match the item. -/
def AttributeList.resolve_to_blocks (items : List AttributeListItem)
    (blocks : List Block) : List (Nat × SectionPointer) :=
  items.filterMap fun it =>
    (blocks.find? (fun b => b.entry_id == it.reference.entry)).bind fun b =>
      (b.blocks.find? (fun p =>
          p.attribute_id == some it.instance_ &&
          p.block_type == BlockType.from_attribute_type_code it.type_code)).map
        fun p => (it.reference.entry, p)

/-! ## `Parser::get_best_path_part` (src/lib.rs)

The nested function `recurse_attributes` recurses through
`AttributeList` indirections; the recursion depth is bounded by a
fuel parameter (exhaustion is the `panicked` marker, standing for
the stack overflow an unbounded `AttributeList` cycle would cause in
Rust).  The reader position is threaded through explicitly: each
level's `Entry::get_entry_bytes` moves the file reader, everything
else reads from the in-memory cursor over the record bytes. -/

/-- The inner `for (resolved_entry_id, resolved_attribute) in ...`
loop of `recurse_attributes`: recurse into each referenced extension
record, swallowing per-record errors (`.ok()`), until one yields a
`FileName`. -/
def pairsLoop
    (recur : Block → Option SectionPointer → Nat → Except Error FileName × Nat)
    (blocks : List Block) :
    List (Nat × SectionPointer) → Nat → Except Error (Option FileName) × Nat
  | [], pos => (.ok none, pos)
  | (rid, rattr) :: rest, pos =>
    match blocks.find? (fun b => b.entry_id == rid) with
    | none => (.error .missingBlock, pos)
    | some resolved_entry =>
      match recur resolved_entry (some rattr) pos with
      | (.ok f, pos') => (.ok (some f), pos')
      | (.error _, pos') => pairsLoop recur blocks rest pos'

/-- The `'outer: for block in attribute_blocks` loop of
`recurse_attributes`.  The seek
`block.offset - entry_block.offset` is checked `u64` subtraction
(panic on underflow). -/
def recurseLoop
    (recur : Block → Option SectionPointer → Nat → Except Error FileName × Nat)
    (blocks : List Block) (entry_block : SectionPointer)
    (entry_bytes : List Nat) :
    List SectionPointer → Nat → Except Error FileName × Nat
  | [], pos => (.error .missingFileNameAttribute, pos)
  | ptr :: rest, pos =>
    if ptr.offset < entry_block.offset then (.error .panicked, pos)
    else
      let rel := ptr.offset - entry_block.offset
      match ptr.block_type with
      | .fileName =>
        (match FileName.from_reader entry_bytes rel with
         | .error e => (.error e, pos)
         | .ok (f, _) =>
           if f.name_space ≠ 2 then (.ok f, pos)
           else recurseLoop recur blocks entry_block entry_bytes rest pos)
      | .attributeList =>
        (match AttributeList.from_reader entry_bytes rel ptr.size with
         | .error e => (.error e, pos)
         | .ok items =>
           match pairsLoop recur blocks
               (AttributeList.resolve_to_blocks items blocks) pos with
           | (.error e, pos') => (.error e, pos')
           | (.ok (some f), pos') => (.ok f, pos')
           | (.ok none, pos') =>
             recurseLoop recur blocks entry_block entry_bytes rest pos')
      | _ => recurseLoop recur blocks entry_block entry_bytes rest pos

/-- `recurse_attributes` (the nested function of
`Parser::get_best_path_part`). -/
def recurseAttributes (data : List Nat) (blocks : List Block) :
    Nat → Block → Option SectionPointer → Nat → Except Error FileName × Nat
  | 0, _, _, pos => (.error .panicked, pos)
  | fuel + 1, target_block, target_attribute, pos =>
    match target_block.blocks.find? (fun b => b.block_type == .entry) with
    | none => (.error .missingBlock, pos)
    | some entry_block =>
      match Entry.get_entry_bytes data entry_block.offset with
      | (.error e, pos') => (.error e, pos')
      | (.ok entry_bytes, pos') =>
        let attribute_blocks := target_block.blocks.filter fun b =>
          match target_attribute with
          | some a =>
            b.attribute_id == a.attribute_id &&
              (b.block_type == .fileName || b.block_type == .attributeList)
          | none =>
            b.block_type == .fileName || b.block_type == .attributeList
        recurseLoop (recurseAttributes data blocks fuel) blocks entry_block
          entry_bytes attribute_blocks pos'

/-- `Parser::get_best_path_part`: locate the record's block and run
`recurse_attributes` on it with no target attribute.  Returns the
result together with the parser state after the call. -/
def Parser.get_best_path_part (data : List Nat) (p : Parser)
    (entry_id : Nat) (fuel : Nat) : Except Error FileName × Parser :=
  match p.blocks.find? (fun b => b.entry_id == entry_id) with
  | none => (.error .missingBlock, p)
  | some target_block =>
    let (r, pos') := recurseAttributes data p.blocks fuel target_block none
      p.pos
    (r, { p with pos := pos' })

/-! ## `Parser::get_file_path` (src/lib.rs)

The parent walk consults and fills the `path_parts` cache and calls
`get_best_path_part` on cache misses.  By the frame property of
`get_best_path_part` (it never touches `path_parts`, `blocks`,
`records`, `size` or `settings`, and its result does not depend on
the reader position because `get_entry_bytes` seeks absolutely), the
resolution step is embedded as a pure function
`resolve : entry_id → ResolveRes` of the entry id.  The `loop` is
fuel-indexed: `none` means the walk has not finished within the
given fuel (for a diverging walk, every fuel). -/

/-- Outcome of one `get_best_path_part` call, as consumed by
`get_file_path`: the name and parent entry of the best `FileName`,
a `MissingFileNameAttribute` miss, or any other error. -/
inductive ResolveRes where
  | found (name : String) (parent : Nat) : ResolveRes
  | missingFileName : ResolveRes
  | fail (e : Error) : ResolveRes

/-- The root path component: `"{drive}:"` when a drive letter is
configured, otherwise `"{Root}"`. -/
def rootPart (drive : Option Char) : String :=
  match drive with
  | some c => String.mk [c] ++ ":"
  | none => "{Root}"

/-- The `loop` of `get_file_path`.  `parts` is the `Vec` of pushed
components with the most recent push at the head (so the final
reversal of the source corresponds to reading the list front to
back). -/
def gfpLoop (resolve : Nat → ResolveRes) (drive : Option Char) :
    Nat → Cache → Nat → List String →
    Option (Except Error (List String) × Cache)
  | 0, _, _, _ => none
  | fuel + 1, cache, current_id, parts =>
    match cache.lookup current_id with
    | some (some (name, parent_id)) =>
      -- The source's first arm `Some(Some((name, 5)))` is the
      -- `parent_id = 5` test; its second arm is the rest.
      if parent_id = 5 then
        some (.ok (rootPart drive :: name :: parts), cache)
      else if current_id = parent_id ∨ parent_id = 0 then
        some (.ok ("{Orphaned}" :: name :: parts), cache)
      else gfpLoop resolve drive fuel cache parent_id (name :: parts)
    | _ =>
      match resolve current_id with
      | .found name parent =>
        gfpLoop resolve drive fuel
          (cache.insert current_id (some (name, parent))) current_id parts
      | .missingFileName => some (.ok parts, cache)
      | .fail e => some (.error e, cache)

/-- `Parser::get_file_path`: run the walk from `entry_id` with no
accumulated parts and join the reversed parts with `'/'`. -/
def getFilePath (resolve : Nat → ResolveRes) (drive : Option Char)
    (fuel : Nat) (cache : Cache) (entry_id : Nat) :
    Option (Except Error String × Cache) :=
  (gfpLoop resolve drive fuel cache entry_id []).map fun rc =>
    (rc.1.map (String.intercalate "/"), rc.2)

/-- `get_file_path entry_id` terminates on some fuel. -/
def gfpTerminates (resolve : Nat → ResolveRes) (drive : Option Char)
    (cache : Cache) (entry_id : Nat) : Prop :=
  ∃ fuel, (getFilePath resolve drive fuel cache entry_id).isSome

/-! ## Record projection and iterator (src/iter.rs) -/

/-- Public record projection (src/iter.rs `struct Record`; the path
is the joined string of `get_file_path`). -/
structure Record where
  entry_id : Nat
  path : String
  is_file : Bool
  is_deleted : Bool
  filename : Option String
  created : DateTime
  modified : DateTime
  accessed : DateTime
deriving DecidableEq, Repr

/-- `u16::to_le_bytes`. -/
def u16ToLeBytes (v : Nat) : List Nat := [v % 256, v / 256 % 256]

/-- The deleted predicate of `Record::from` (src/iter.rs:50):
`entry_header.flags.to_le_bytes().contains(&0x02)`. -/
def isDeletedOfFlags (flags : Nat) : Bool :=
  (u16ToLeBytes flags).contains 2

/-- The `is_file` predicate of `Record::from` (src/iter.rs:38):
`standard_info.file_attributes != 0x00000010`. -/
def isFileOfAttributes (file_attributes : Nat) : Bool :=
  file_attributes ≠ 0x10

/-- The exclusion decision of `Iterator::next` (src/iter.rs:120-144):
`to_skip` starts `false`; the path-regex branch assigns
`r.path.to_str().map(|s| re.is_match(s)) == Some(true)` when a path
exclusion regex is configured, and the filename-regex branch then
assigns `r.filename.as_ref().map(..) == Some(true)` when a filename
exclusion regex is configured — each `if let` overwrites, it does
not accumulate. -/
def computeToSkip (settings : ParserSettings) (r : Record) : Bool :=
  let toSkip := false
  let toSkip := match settings.path_exclusion_regex with
    | some re => ((some r.path).map re) == some true
    | none => toSkip
  let toSkip := match settings.filename_exclusion_regex with
    | some re => (r.filename.map re) == some true
    | none => toSkip
  toSkip

/-- The `while let Some(block) = ... blocks.get(next_entry_id)` loop
of `Iterator::next` (src/iter.rs:115-151), over the suffix of the
block list starting at `next_entry_id = i`.  Record construction
(`Record::from`, which mutates the parser through path caching and
reader seeks) is the state-passing argument `recordFrom`.  On a
per-record error the loop logs a warning and continues; on a
regex-excluded record it continues; otherwise it emits the record
(the CSV/JSON formatting of the emitted record is total and is left
out) together with the advanced `next_entry_id` and state. -/
def nextLoop {σ : Type}
    (recordFrom : σ → Block → Except Error Record × σ)
    (settings : ParserSettings) :
    List Block → Nat → σ → Option (Record × Nat × σ)
  | [], _, _ => none
  | block :: rest, i, st =>
    let (res, st') := recordFrom st block
    match res with
    | .error _ => nextLoop recordFrom settings rest (i + 1) st'
    | .ok r =>
      if computeToSkip settings r then
        nextLoop recordFrom settings rest (i + 1) st'
      else some (r, i + 1, st')

/-! # Theorems -/

/-! ## C9 — filetime conversion -/

/-- Claim C9: for every u64 `t`, `convert_filetime(t)` equals
1601-01-01T00:00:00Z plus `t / 10` microseconds under truncating
integer division; in particular `convert_filetime(0)` is
1601-01-01T00:00:00Z and `convert_filetime(10_000_000)` is
1601-01-01T00:00:01Z. -/
theorem convert_filetime_spec :
    (∀ t : Nat, convert_u64_to_datetime t =
      (DateTime.ofYmdHms 1601 1 1 0 0 0).addMicros ((t / 10 : Nat) : Int))
    ∧ convert_u64_to_datetime 0 = DateTime.ofYmdHms 1601 1 1 0 0 0
    ∧ convert_u64_to_datetime 10000000 = DateTime.ofYmdHms 1601 1 1 0 0 1 :=
  ⟨fun _ => rfl, by decide, by decide⟩

/-! ## C5 — the deleted predicate -/

/-- Claim C5 counterexample: at `flags = 2` the emitted
`is_deleted` is `true` although bit 1 of the flags value (the bit the
claim requires to be zero) is set, so "`is_deleted` iff bit 1 of the
little-endian byte representation is zero" fails. -/
theorem is_deleted_bit1_counterexample :
    ¬ (isDeletedOfFlags 2 = true ↔ Nat.testBit 2 1 = false) := by
  decide

/-- Claim C5 as amended: `is_deleted` is true iff one of the two
bytes of the little-endian representation of the header's `flags`
field equals `0x02`. -/
theorem is_deleted_le_byte_spec (flags : Nat) :
    isDeletedOfFlags flags = true ↔
      (flags % 256 = 2 ∨ flags / 256 % 256 = 2) := by
  simp only [isDeletedOfFlags, u16ToLeBytes, List.contains_cons,
    List.contains_nil, Bool.or_false, Bool.or_eq_true, beq_iff_eq]
  constructor
  · rintro (h | h)
    · exact Or.inl h.symm
    · exact Or.inr h.symm
  · rintro (h | h)
    · exact Or.inl h.symm
    · exact Or.inr h.symm

/-! ## C2 — path exclusion versus filename exclusion -/

/-- Path-exclusion predicate of the C2 failing input. -/
def c2PathRe : RegexPred := fun s => s == "C:/Windows/x"

/-- Filename-exclusion predicate of the C2 failing input (matches
nothing). -/
def c2NameRe : RegexPred := fun _ => false

/-- Settings of the C2 failing input: both exclusion regexes
configured. -/
def c2Settings : ParserSettings :=
  { drive_char := some 'C', path_exclusion_regex := some c2PathRe,
    filename_exclusion_regex := some c2NameRe }

/-- The record of the C2 failing input: its full path matches the
path exclusion regex, its basename does not match the filename
exclusion regex. -/
def c2Record : Record :=
  { entry_id := 0, path := "C:/Windows/x", is_file := true,
    is_deleted := false, filename := some "x",
    created := convert_u64_to_datetime 0,
    modified := convert_u64_to_datetime 0,
    accessed := convert_u64_to_datetime 0 }

/-- Record construction of the C2 failing input (always succeeds with
`c2Record`). -/
def c2RecordFrom : Unit → Block → Except Error Record × Unit :=
  fun st _ => (.ok c2Record, st)

/-- A block for the C2 failing input (contents irrelevant to the
filter decision). -/
def c2Block : Block := { blocks := [], entry_id := 0 }

/-- Claim C2: although the record's full path matches the configured
`path_exclusion_regex`, the iterator emits it, because the
`filename_exclusion_regex` branch of `Iterator::next` overwrites the
`to_skip` decision of the path branch instead of accumulating it —
the record is not suppressed. -/
theorem path_exclusion_overwritten :
    c2PathRe c2Record.path = true ∧
      nextLoop c2RecordFrom c2Settings [c2Block] 0 () =
        some (c2Record, 1, ()) := by
  constructor
  · decide
  · rfl

/-! ## C4 — fixup replacement loop bounds -/

/-- The C4 failing input: a record whose header carries
`total_entry_size = 510`, `offset_to_fixup = 48`, `num_of_fixup = 3`
(and a `FILE` signature), followed by enough zero bytes for the whole
510-byte record. -/
def c4Data : List Nat :=
  [0x46, 0x49, 0x4C, 0x45, 48, 0, 3, 0] ++ List.replicate 20 0 ++
    [0xFE, 0x01, 0, 0] ++ List.replicate 478 0

set_option maxRecDepth 16000 in
/-- Claim C4: on the C4 failing input the first fixup iteration
computes `replace_offset = 510` with a 510-byte buffer; the guard
`replace_offset > buffer.len()` does not fire and
`buffer[replace_offset]` is an out-of-bounds store — the parse
panics instead of stopping cleanly, refuting "no out-of-bounds
access or panic for all header values". -/
theorem fixup_loop_out_of_bounds :
    Entry.from_reader 1 c4Data 0 none = .error .panicked := by
  rfl

/-! ## C10 — frame effect of `get_best_path_part` -/

/-- Claim C10: `Parser::get_best_path_part` returns, whether `Ok` or
`Err`, without modifying the parser's `path_parts` cache, `blocks`
vector, record count, size, or settings (only the reader position
component of the returned state may differ). -/
theorem get_best_path_part_frame (data : List Nat) (p : Parser)
    (entry_id fuel : Nat) :
    ((Parser.get_best_path_part data p entry_id fuel).2.path_parts =
        p.path_parts)
    ∧ ((Parser.get_best_path_part data p entry_id fuel).2.blocks = p.blocks)
    ∧ ((Parser.get_best_path_part data p entry_id fuel).2.records = p.records)
    ∧ ((Parser.get_best_path_part data p entry_id fuel).2.size = p.size)
    ∧ ((Parser.get_best_path_part data p entry_id fuel).2.settings =
        p.settings) := by
  unfold Parser.get_best_path_part
  cases p.blocks.find? (fun b => b.entry_id == entry_id) <;>
    simp

/-! ## C3 — zeroed-header records -/

/-- Claim C3: whenever the 48 header bytes read at the cursor decode
to a zeroed header (every field except `total_entry_size` zero), the
raw parser yields a record with an empty attribute list and leaves
the reader at `file_offset + 1024`, i.e. parsing advances exactly
`MFT_RECORD_SIZE` bytes from the record's start to the start of the
next record. -/
theorem zeroed_header_record (fuel : Nat) (data : List Nat) (pos : Nat)
    (prev : Option Entry) (h : Header)
    (h1 : Header.from_buffer (takeRead data pos 48).1 = .ok h)
    (h2 : h.is_zeroed = true) :
    Entry.from_reader fuel data pos prev =
      .ok ({ offset := fileOffsetOf prev, entry_n := entryNOf prev,
             header := h, attributes := [] },
           fileOffsetOf prev + MFT_RECORD_SIZE) := by
  rcases ht : takeRead data pos 48 with ⟨buffer, pos2⟩
  rw [ht] at h1
  simp only at h1
  unfold Entry.from_reader
  rw [ht]
  simp only [h1]
  simp [Except.bind, Bind.bind, h2, Pure.pure, Except.pure]

/-- The zeroed header decoded from 48 zero bytes. -/
def c3Header : Header :=
  { sig := [0, 0, 0, 0], offset_to_fixup := 0, num_of_fixup := 0,
    log_sequence_number := 0, sequence_number := 0, link_count := 0,
    attrs_offset := 0, flags := 0, used_entry_size := 0,
    total_entry_size := 0, base_mft_record := ⟨0, 0⟩, next_attr_id := 0 }

/-- Witness for claim C3: a concrete 48-byte zero record at offset 0
parses to an empty-attribute entry and the reader advances to byte
1024. -/
theorem zeroed_header_record_witness :
    Entry.from_reader 0 (List.replicate 48 0) 0 none =
      .ok ({ offset := 0, entry_n := 0, header := c3Header,
             attributes := [] }, 1024) :=
  zeroed_header_record 0 (List.replicate 48 0) 0 none c3Header rfl
    (by decide)

/-! ## C6 — per-record failures and iteration -/

/-- Record construction of the C6 failing input (always fails). -/
def c6RecordFrom : Unit → Block → Except Error Record × Unit :=
  fun st _ => (.error .missingBlock, st)

/-- Settings of the C6 failing input (no exclusions). -/
def c6Settings : ParserSettings :=
  { drive_char := none, path_exclusion_regex := none,
    filename_exclusion_regex := none }

/-- A block for the C6 failing input. -/
def c6Block : Block := { blocks := [], entry_id := 0 }

/-- Claim C6 counterexample: when the failing entry is the last one,
`Iterator::next` does return `None` — record construction fails at
entry 0 of a one-record parser and `next` yields nothing, refuting
"if constructing the Record returns an error, `Iterator::next` does
not return `None`". -/
theorem next_error_at_last_entry_returns_none :
    (c6RecordFrom () c6Block).1 = .error .missingBlock ∧
      nextLoop c6RecordFrom c6Settings [c6Block] 0 () = none :=
  ⟨rfl, rfl⟩

/-- Claim C6 as amended: on a record-construction error
`Iterator::next` neither propagates the error nor stops there — its
result is exactly the result of resuming iteration at the following
entry (so it returns `None` only when the remaining entries are
exhausted). -/
theorem next_skips_failing_record {σ : Type}
    (recordFrom : σ → Block → Except Error Record × σ)
    (settings : ParserSettings) (block : Block) (rest : List Block)
    (i : Nat) (st : σ) (e : Error)
    (herr : (recordFrom st block).1 = .error e) :
    nextLoop recordFrom settings (block :: rest) i st =
      nextLoop recordFrom settings rest (i + 1) (recordFrom st block).2 := by
  rw [nextLoop]
  rcases hr : recordFrom st block with ⟨res, st'⟩
  rw [hr] at herr
  simp only at herr
  subst herr
  simp

/-- Witness for the amended claim C6: with the always-failing record
constructor, `next` over a two-block list equals `next` resumed at
the second block. -/
theorem next_skips_failing_record_witness :
    nextLoop c6RecordFrom c6Settings [c6Block, c6Block] 0 () =
      nextLoop c6RecordFrom c6Settings [c6Block] 1 () :=
  next_skips_failing_record c6RecordFrom c6Settings c6Block [c6Block] 0 ()
    .missingBlock rfl

/-! ## C7 — block index shape -/

/-- Invariant of the `Parser::get_blocks` loop: a successful run over
`remaining` records starting at `record_n` yields one block per
record, numbered consecutively from `record_n`. -/
theorem getBlocksGo_length_ids (data : List Nat) (fuel : Nat) :
    ∀ remaining pos prev record_n blocks pos',
      getBlocksGo fuel data remaining pos prev record_n =
        .ok (blocks, pos') →
      blocks.length = remaining ∧
        ∀ j b, blocks.get? j = some b → b.entry_id = record_n + j := by
  intro remaining
  induction remaining with
  | zero =>
    intro pos prev record_n blocks pos' hgo
    unfold getBlocksGo at hgo
    simp only [Except.ok.injEq, Prod.mk.injEq] at hgo
    obtain ⟨hb, _⟩ := hgo
    subst hb
    exact ⟨rfl, by intro j b hj; simp at hj⟩
  | succ rem ih =>
    intro pos prev record_n blocks pos' hgo
    unfold getBlocksGo at hgo
    cases hfr : Entry.from_reader fuel data pos prev with
    | error e => rw [hfr] at hgo; simp [Except.bind, Bind.bind] at hgo
    | ok ep =>
      rcases ep with ⟨entry, pos1⟩
      rw [hfr] at hgo
      simp only [Except.bind, Bind.bind, Block.new_with_entry] at hgo
      cases hrec : getBlocksGo fuel data rem pos1 (some entry)
          (record_n + 1) with
      | error e => rw [hrec] at hgo; simp [Except.bind, Bind.bind] at hgo
      | ok rp =>
        rcases rp with ⟨restBlocks, pos2⟩
        rw [hrec] at hgo
        simp only [Except.bind, Bind.bind, Pure.pure, Except.pure,
          Except.ok.injEq, Prod.mk.injEq] at hgo
        obtain ⟨hb, _⟩ := hgo
        obtain ⟨hlen, hids⟩ := ih pos1 (some entry) (record_n + 1)
          restBlocks pos2 hrec
        subst hb
        refine ⟨by simp [hlen], ?_⟩
        intro j b hj
        cases j with
        | zero =>
          simp only [List.get?_cons_zero, Option.some.injEq] at hj
          subst hj
          simp
        | succ k =>
          simp only [List.get?_cons_succ] at hj
          have := hids k b hj
          omega

/-- Claim C7: after successful construction of a parser on a file of
`S` bytes, the block index has exactly `S / 1024` entries and
`blocks[i].entry_id == i` for every index `i`. -/
theorem parser_block_index_dense (fuel : Nat) (data : List Nat)
    (settings : ParserSettings) (p : Parser)
    (hp : Parser.with_settings fuel data settings = .ok p) :
    p.blocks.length = data.length / 1024 ∧
      ∀ i b, p.blocks.get? i = some b → b.entry_id = i := by
  unfold Parser.with_settings Parser.get_blocks at hp
  dsimp only at hp
  cases hgo : getBlocksGo fuel data (data.length / MFT_RECORD_SIZE) 0
      none 0 with
  | error e => rw [hgo] at hp; simp [Except.bind, Bind.bind] at hp
  | ok bp =>
    rcases bp with ⟨blocks, pos⟩
    rw [hgo] at hp
    simp only [Except.bind, Bind.bind, Pure.pure, Except.pure,
      Except.ok.injEq] at hp
    obtain ⟨hlen, hids⟩ := getBlocksGo_length_ids data fuel
      (data.length / MFT_RECORD_SIZE) 0 none 0 blocks pos hgo
    subst hp
    exact ⟨hlen, fun i b hi => by have := hids i b hi; omega⟩

/-- Input file of the C7 witness: one zeroed 1024-byte record. -/
def c7Data : List Nat := List.replicate 1024 0

/-- Settings of the C7 witness. -/
def c7Settings : ParserSettings :=
  { drive_char := none, path_exclusion_regex := none,
    filename_exclusion_regex := none }

/-- The parser built on the C7 witness input. -/
def c7Parser : Parser :=
  { pos := 1024, size := 1024, records := 1,
    blocks := [{ blocks := [{ block_type := .entry, is_resident := true,
                              attribute_id := none, offset := 0,
                              size := 0 }], entry_id := 0 }],
    path_parts := [], settings := c7Settings }

set_option maxRecDepth 16000 in
/-- Witness for claim C7: on a concrete 1024-byte file the
construction succeeds, the index has `1024 / 1024 = 1` entry and
entry 0 carries `entry_id = 0`. -/
theorem parser_block_index_dense_witness :
    Parser.with_settings 1 c7Data c7Settings = .ok c7Parser ∧
      c7Parser.blocks.length = c7Data.length / 1024 ∧
      (∀ b, c7Parser.blocks.get? 0 = some b → b.entry_id = 0) :=
  have hps : Parser.with_settings 1 c7Data c7Settings = .ok c7Parser := rfl
  ⟨hps, (parser_block_index_dense 1 c7Data c7Settings c7Parser hps).1,
    fun b hb =>
      (parser_block_index_dense 1 c7Data c7Settings c7Parser hps).2 0 b hb⟩

/-! ## C8 — DOS 8.3 names are never preferred -/

/-- If every result of the recursion step avoids name space 2, so
does any `FileName` produced by the extension-record loop. -/
theorem pairsLoop_ok_name_space
    (recur : Block → Option SectionPointer → Nat → Except Error FileName × Nat)
    (blocks : List Block)
    (hrec : ∀ b ta p0 f0 p1, recur b ta p0 = (.ok f0, p1) →
      f0.name_space ≠ 2) :
    ∀ pairs pos f pos',
      pairsLoop recur blocks pairs pos = (.ok (some f), pos') →
      f.name_space ≠ 2 := by
  intro pairs
  induction pairs with
  | nil =>
    intro pos f pos' h
    unfold pairsLoop at h
    simp at h
  | cons head rest ih =>
    intro pos f pos' h
    rcases head with ⟨rid, rattr⟩
    unfold pairsLoop at h
    cases hf : blocks.find? (fun b => b.entry_id == rid) with
    | none => rw [hf] at h; simp at h
    | some resolved_entry =>
      rw [hf] at h
      simp only at h
      cases hr : recur resolved_entry (some rattr) pos with
      | mk res pos1 =>
        rw [hr] at h
        cases res with
        | ok f0 =>
          simp only [Prod.mk.injEq, Except.ok.injEq, Option.some.injEq] at h
          obtain ⟨hf0, _⟩ := h
          exact hf0 ▸ hrec resolved_entry (some rattr) pos f0 pos1 hr
        | error e =>
          exact ih pos1 f pos' h

/-- If every result of the recursion step avoids name space 2, so
does any `FileName` produced by the attribute-pointer loop of
`recurse_attributes` (the direct `FileName` branch checks
`name_space != 2` itself). -/
theorem recurseLoop_ok_name_space
    (recur : Block → Option SectionPointer → Nat → Except Error FileName × Nat)
    (blocks : List Block) (entry_block : SectionPointer)
    (entry_bytes : List Nat)
    (hrec : ∀ b ta p0 f0 p1, recur b ta p0 = (.ok f0, p1) →
      f0.name_space ≠ 2) :
    ∀ ptrs pos f pos',
      recurseLoop recur blocks entry_block entry_bytes ptrs pos =
        (.ok f, pos') →
      f.name_space ≠ 2 := by
  intro ptrs
  induction ptrs with
  | nil =>
    intro pos f pos' h
    unfold recurseLoop at h
    simp at h
  | cons ptr rest ih =>
    intro pos f pos' h
    unfold recurseLoop at h
    by_cases hlt : ptr.offset < entry_block.offset
    · simp only [if_pos hlt] at h
      simp at h
    · simp only [if_neg hlt] at h
      cases hbt : ptr.block_type with
      | fileName =>
        rw [hbt] at h
        simp only at h
        cases hfn : FileName.from_reader entry_bytes
            (ptr.offset - entry_block.offset) with
        | error e => rw [hfn] at h; simp at h
        | ok fq =>
          rcases fq with ⟨f0, q0⟩
          rw [hfn] at h
          simp only at h
          by_cases hns : f0.name_space ≠ 2
          · simp only [if_pos hns] at h
            simp only [Prod.mk.injEq, Except.ok.injEq] at h
            obtain ⟨hf0, _⟩ := h
            exact hf0 ▸ hns
          · simp only [if_neg hns] at h
            exact ih pos f pos' h
      | attributeList =>
        rw [hbt] at h
        simp only at h
        cases hal : AttributeList.from_reader entry_bytes
            (ptr.offset - entry_block.offset) ptr.size with
        | error e => rw [hal] at h; simp at h
        | ok items =>
          rw [hal] at h
          simp only at h
          cases hpl : pairsLoop recur blocks
              (AttributeList.resolve_to_blocks items blocks) pos with
          | mk plres pos1 =>
            rw [hpl] at h
            cases plres with
            | error e => simp at h
            | ok fo =>
              cases fo with
              | some f0 =>
                simp only [Prod.mk.injEq, Except.ok.injEq] at h
                obtain ⟨hf0, _⟩ := h
                exact hf0 ▸ pairsLoop_ok_name_space recur blocks hrec
                  (AttributeList.resolve_to_blocks items blocks) pos f0 pos1
                  hpl
              | none =>
                exact ih pos1 f pos' h
      | entry => rw [hbt] at h; exact ih pos f pos' h
      | standardInformation => rw [hbt] at h; exact ih pos f pos' h
      | objectId => rw [hbt] at h; exact ih pos f pos' h
      | securityDescriptor => rw [hbt] at h; exact ih pos f pos' h
      | volumeName => rw [hbt] at h; exact ih pos f pos' h
      | volumeInformation => rw [hbt] at h; exact ih pos f pos' h
      | data => rw [hbt] at h; exact ih pos f pos' h
      | indexRoot => rw [hbt] at h; exact ih pos f pos' h
      | indexAllocation => rw [hbt] at h; exact ih pos f pos' h
      | bitmap => rw [hbt] at h; exact ih pos f pos' h
      | reparsePoint => rw [hbt] at h; exact ih pos f pos' h
      | eaInformation => rw [hbt] at h; exact ih pos f pos' h
      | ea => rw [hbt] at h; exact ih pos f pos' h
      | propertySet => rw [hbt] at h; exact ih pos f pos' h
      | loggedUtilityStream => rw [hbt] at h; exact ih pos f pos' h
      | end_ => rw [hbt] at h; exact ih pos f pos' h
      | unknownAttribute => rw [hbt] at h; exact ih pos f pos' h
      | zoneIdentifier => rw [hbt] at h; exact ih pos f pos' h

/-- `recurse_attributes` never returns a `FileName` with name
space 2, for any fuel. -/
theorem recurseAttributes_ok_name_space (data : List Nat)
    (blocks : List Block) :
    ∀ fuel tb ta pos f pos',
      recurseAttributes data blocks fuel tb ta pos = (.ok f, pos') →
      f.name_space ≠ 2 := by
  intro fuel
  induction fuel with
  | zero =>
    intro tb ta pos f pos' h
    unfold recurseAttributes at h
    simp at h
  | succ n ih =>
    intro tb ta pos f pos' h
    unfold recurseAttributes at h
    cases hfe : tb.blocks.find? (fun b => b.block_type == .entry) with
    | none => rw [hfe] at h; simp at h
    | some entry_block =>
      rw [hfe] at h
      simp only at h
      cases hgb : Entry.get_entry_bytes data entry_block.offset with
      | mk gres pos1 =>
        rw [hgb] at h
        cases gres with
        | error e => simp at h
        | ok entry_bytes =>
          simp only at h
          exact recurseLoop_ok_name_space
            (recurseAttributes data blocks n) blocks entry_block entry_bytes
            (fun b ta2 p0 f0 p1 hr => ih b ta2 p0 f0 p1 hr) _ pos1 f pos' h

/-- Claim C8: (1) whenever `get_best_path_part` returns `Ok(f)`,
`f.name_space != 2`; (2) for a record carrying both a DOS
(`name_space == 2`) `FileName` and a `FileName` with any other name
space, the returned `FileName` is the non-DOS one. -/
theorem best_path_part_skips_dos :
    (∀ (data : List Nat) (p : Parser) (entry_id fuel : Nat)
       (f : FileName) (p' : Parser),
       Parser.get_best_path_part data p entry_id fuel = (.ok f, p') →
       f.name_space ≠ 2)
    ∧ (∀ (data : List Nat) (p : Parser) (entry_id fuel : Nat) (tb : Block)
       (eb p2 p1 : SectionPointer) (ebytes : List Nat) (pos1 : Nat)
       (f2 : FileName) (q2 : Nat) (f1 : FileName) (q1 : Nat),
       p.blocks.find? (fun b => b.entry_id == entry_id) = some tb →
       tb.blocks = [eb, p2, p1] →
       eb.block_type = .entry →
       p2.block_type = .fileName →
       p1.block_type = .fileName →
       Entry.get_entry_bytes data eb.offset = (.ok ebytes, pos1) →
       eb.offset ≤ p2.offset →
       eb.offset ≤ p1.offset →
       FileName.from_reader ebytes (p2.offset - eb.offset) = .ok (f2, q2) →
       f2.name_space = 2 →
       FileName.from_reader ebytes (p1.offset - eb.offset) = .ok (f1, q1) →
       f1.name_space ≠ 2 →
       Parser.get_best_path_part data p entry_id (fuel + 1) =
         (.ok f1, { p with pos := pos1 })) := by
  constructor
  · intro data p entry_id fuel f p' h
    unfold Parser.get_best_path_part at h
    cases hfind : p.blocks.find? (fun b => b.entry_id == entry_id) with
    | none => rw [hfind] at h; simp at h
    | some tb =>
      rw [hfind] at h
      simp only at h
      cases hra : recurseAttributes data p.blocks fuel tb none p.pos with
      | mk r pos2 =>
        rw [hra] at h
        simp only [Prod.mk.injEq] at h
        obtain ⟨hr, _⟩ := h
        rw [hr] at hra
        exact recurseAttributes_ok_name_space data p.blocks fuel tb none
          p.pos f pos2 hra
  · intro data p entry_id fuel tb eb p2 p1 ebytes pos1 f2 q2 f1 q1
      hfind htb heb hp2t hp1t hbytes hge2 hge1 hf2 hns2 hf1 hns1
    have hra : recurseAttributes data p.blocks (fuel + 1) tb none p.pos =
        (.ok f1, pos1) := by
      unfold recurseAttributes
      rw [htb]
      have hfe : List.find? (fun b => b.block_type == BlockType.entry)
          [eb, p2, p1] = some eb :=
        List.find?_cons_of_pos _ (by rw [heb]; rfl)
      rw [hfe]
      simp only
      rw [hbytes]
      simp only
      have hfl : List.filter
          (fun b => b.block_type == BlockType.fileName ||
            b.block_type == BlockType.attributeList) [eb, p2, p1] =
          [p2, p1] := by
        simp only [List.filter, heb, hp2t, hp1t]
        rfl
      rw [hfl]
      unfold recurseLoop
      rw [if_neg (Nat.not_lt.mpr hge2), hp2t]
      simp only
      rw [hf2]
      simp only [hns2, ne_eq, not_true_eq_false, if_false]
      unfold recurseLoop
      rw [if_neg (Nat.not_lt.mpr hge1), hp1t]
      simp only
      rw [hf1]
      simp [hns1]
    unfold Parser.get_best_path_part
    rw [hfind]
    simp only
    rw [hra]

/-- Bytes of the C8 witness: a 250-byte record at offset 0 holding a
DOS `FileName` image at offset 80 (`name_space = 2`, name `a`) and a
Win32 `FileName` image at offset 160 (`name_space = 1`, name `b`). -/
def c8Data : List Nat :=
  [0x46, 0x49, 0x4C, 0x45, 48, 0, 0, 0] ++ List.replicate 20 0 ++
    [250, 0, 0, 0] ++ List.replicate 112 0 ++ [1, 2, 97, 0] ++
    List.replicate 76 0 ++ [1, 1, 98, 0] ++ List.replicate 22 0

/-- Entry pointer of the C8 witness block. -/
def c8EntryPtr : SectionPointer :=
  { block_type := .entry, is_resident := true, attribute_id := none,
    offset := 0, size := 250 }

/-- Pointer to the DOS `FileName` of the C8 witness. -/
def c8DosPtr : SectionPointer :=
  { block_type := .fileName, is_resident := true, attribute_id := some 1,
    offset := 80, size := 0 }

/-- Pointer to the Win32 `FileName` of the C8 witness. -/
def c8WinPtr : SectionPointer :=
  { block_type := .fileName, is_resident := true, attribute_id := some 2,
    offset := 160, size := 0 }

/-- Block of the C8 witness record (entry id 7). -/
def c8Block : Block :=
  { blocks := [c8EntryPtr, c8DosPtr, c8WinPtr], entry_id := 7 }

/-- Settings of the C8 witness parser. -/
def c8Settings : ParserSettings :=
  { drive_char := none, path_exclusion_regex := none,
    filename_exclusion_regex := none }

/-- Parser state of the C8 witness. -/
def c8Parser : Parser :=
  { pos := 0, size := 250, records := 0, blocks := [c8Block],
    path_parts := [], settings := c8Settings }

/-- The DOS `FileName` decoded from offset 80 of the C8 witness. -/
def c8F2 : FileName :=
  { parent_file_reference := ⟨0, 0⟩,
    creation_time := convert_u64_to_datetime 0,
    modification_time := convert_u64_to_datetime 0,
    mft_modification_time := convert_u64_to_datetime 0,
    access_time := convert_u64_to_datetime 0,
    allocated_size := 0, real_size := 0, flags := 0, reparse_value := 0,
    name_length := 1, name_space := 2, name := "a" }

/-- The Win32 `FileName` decoded from offset 160 of the C8 witness. -/
def c8F1 : FileName :=
  { parent_file_reference := ⟨0, 0⟩,
    creation_time := convert_u64_to_datetime 0,
    modification_time := convert_u64_to_datetime 0,
    mft_modification_time := convert_u64_to_datetime 0,
    access_time := convert_u64_to_datetime 0,
    allocated_size := 0, real_size := 0, flags := 0, reparse_value := 0,
    name_length := 1, name_space := 1, name := "b" }

set_option maxRecDepth 16000 in
/-- Witness for claim C8: on the concrete record carrying the DOS
name `a` and the Win32 name `b`, `get_best_path_part` returns the
Win32 `FileName`, whose name space is not 2. -/
theorem best_path_part_skips_dos_witness :
    Parser.get_best_path_part c8Data c8Parser 7 2 =
      (.ok c8F1, { c8Parser with pos := 250 }) ∧
    c8F1.name_space ≠ 2 :=
  have h : Parser.get_best_path_part c8Data c8Parser 7 2 =
      (.ok c8F1, { c8Parser with pos := 250 }) :=
    best_path_part_skips_dos.2 c8Data c8Parser 7 1 c8Block c8EntryPtr
      c8DosPtr c8WinPtr c8Data 250 c8F2 148 c8F1 228 rfl rfl rfl rfl rfl
      rfl (by decide) (by decide) rfl rfl rfl (by decide)
  ⟨h, best_path_part_skips_dos.1 c8Data c8Parser 7 2 c8F1
    { c8Parser with pos := 250 } h⟩

/-! ## C1 — termination and idempotence of `get_file_path` -/

/-- Looking a key up after an insert: the fresh binding shadows, all
other keys are unchanged. -/
theorem Cache.lookup_insert (c : Cache) (k k' : Nat)
    (v : Option (String × Nat)) :
    Cache.lookup (Cache.insert c k v) k' =
      if k = k' then some v else Cache.lookup c k' := by
  unfold Cache.insert Cache.lookup
  by_cases h : k = k'
  · simp [List.find?, h]
  · have hb : (k == k') = false := by simp [h]
    simp only [List.find?, hb]
    rw [if_neg h]

/-- Fuel monotonicity of the `get_file_path` loop: a run that
finishes within `fuel` steps finishes identically with one more unit
of fuel. -/
theorem gfpLoop_mono (resolve : Nat → ResolveRes) (drive : Option Char) :
    ∀ fuel cache cur parts r,
      gfpLoop resolve drive fuel cache cur parts = some r →
      gfpLoop resolve drive (fuel + 1) cache cur parts = some r := by
  intro fuel
  induction fuel with
  | zero =>
    intro cache cur parts r h
    simp [gfpLoop] at h
  | succ n ih =>
    intro cache cur parts r h
    unfold gfpLoop at h ⊢
    cases hl : Cache.lookup cache cur with
    | none =>
      rw [hl] at h
      cases hr : resolve cur with
      | found name parent => rw [hr] at h; exact ih _ cur parts r h
      | missingFileName => rw [hr] at h; exact h
      | fail e => rw [hr] at h; exact h
    | some vo =>
      cases vo with
      | none =>
        rw [hl] at h
        cases hr : resolve cur with
        | found name parent => rw [hr] at h; exact ih _ cur parts r h
        | missingFileName => rw [hr] at h; exact h
        | fail e => rw [hr] at h; exact h
      | some np =>
        rcases np with ⟨name, parent⟩
        rw [hl] at h
        by_cases hp5 : parent = 5
        · subst hp5
          exact h
        · simp only [if_neg hp5] at h ⊢
          by_cases horph : cur = parent ∨ parent = 0
          · simp only [if_pos horph] at h ⊢
            exact h
          · simp only [if_neg horph] at h ⊢
            exact ih cache parent (name :: parts) r h

/-- Bindings of the form `some (name, parent)` survive a
`get_file_path` walk: the loop only inserts at keys whose lookup was
`none` or `some none`, so an existing `some`-binding is never
shadowed. -/
theorem gfpLoop_preserves_binding (resolve : Nat → ResolveRes)
    (drive : Option Char) :
    ∀ fuel cache cur parts r c' k v,
      Cache.lookup cache k = some (some v) →
      gfpLoop resolve drive fuel cache cur parts = some (r, c') →
      Cache.lookup c' k = some (some v) := by
  intro fuel
  induction fuel with
  | zero =>
    intro cache cur parts r c' k v hk h
    simp [gfpLoop] at h
  | succ n ih =>
    intro cache cur parts r c' k v hk h
    unfold gfpLoop at h
    cases hl : Cache.lookup cache cur with
    | none =>
      rw [hl] at h
      cases hr : resolve cur with
      | found name parent =>
        rw [hr] at h
        refine ih _ cur parts r c' k v ?_ h
        rw [Cache.lookup_insert]
        have hne : ¬ cur = k := by
          intro he
          rw [he] at hl
          rw [hl] at hk
          exact Option.noConfusion hk
        rw [if_neg hne]
        exact hk
      | missingFileName =>
        rw [hr] at h
        simp only [Option.some.injEq, Prod.mk.injEq] at h
        rw [← h.2]
        exact hk
      | fail e =>
        rw [hr] at h
        simp only [Option.some.injEq, Prod.mk.injEq] at h
        rw [← h.2]
        exact hk
    | some vo =>
      cases vo with
      | none =>
        rw [hl] at h
        cases hr : resolve cur with
        | found name parent =>
          rw [hr] at h
          refine ih _ cur parts r c' k v ?_ h
          rw [Cache.lookup_insert]
          have hne : ¬ cur = k := by
            intro he
            rw [he] at hl
            rw [hl] at hk
            simp at hk
          rw [if_neg hne]
          exact hk
        | missingFileName =>
          rw [hr] at h
          simp only [Option.some.injEq, Prod.mk.injEq] at h
          rw [← h.2]
          exact hk
        | fail e =>
          rw [hr] at h
          simp only [Option.some.injEq, Prod.mk.injEq] at h
          rw [← h.2]
          exact hk
      | some np =>
        rcases np with ⟨name, parent⟩
        rw [hl] at h
        by_cases hp5 : parent = 5
        · simp only [if_pos hp5, Option.some.injEq, Prod.mk.injEq] at h
          rw [← h.2]
          exact hk
        · simp only [if_neg hp5] at h
          by_cases horph : cur = parent ∨ parent = 0
          · simp only [if_pos horph, Option.some.injEq, Prod.mk.injEq] at h
            rw [← h.2]
            exact hk
          · simp only [if_neg horph] at h
            exact ih cache parent (name :: parts) r c' k v hk h

/-- A successful `get_file_path` walk reruns identically on the cache
it produced: the second walk takes the same chain through cache hits
and returns the same parts and the same cache. -/
theorem gfpLoop_idem (resolve : Nat → ResolveRes) (drive : Option Char) :
    ∀ fuel cache id parts res c',
      gfpLoop resolve drive fuel cache id parts = some (.ok res, c') →
      gfpLoop resolve drive fuel c' id parts = some (.ok res, c') := by
  intro fuel
  induction fuel with
  | zero =>
    intro cache id parts res c' h
    simp [gfpLoop] at h
  | succ n ih =>
    intro cache id parts res c' h
    unfold gfpLoop at h
    cases hl : Cache.lookup cache id with
    | none =>
      rw [hl] at h
      cases hr : resolve id with
      | found name parent =>
        rw [hr] at h
        exact gfpLoop_mono resolve drive n c' id parts (.ok res, c')
          (ih _ id parts res c' h)
      | missingFileName =>
        rw [hr] at h
        simp only [Option.some.injEq, Prod.mk.injEq] at h
        obtain ⟨hres, hc⟩ := h
        subst hc
        unfold gfpLoop
        rw [hl, hr, hres]
      | fail e =>
        rw [hr] at h
        simp at h
    | some vo =>
      cases vo with
      | none =>
        rw [hl] at h
        cases hr : resolve id with
        | found name parent =>
          rw [hr] at h
          exact gfpLoop_mono resolve drive n c' id parts (.ok res, c')
            (ih _ id parts res c' h)
        | missingFileName =>
          rw [hr] at h
          simp only [Option.some.injEq, Prod.mk.injEq] at h
          obtain ⟨hres, hc⟩ := h
          subst hc
          unfold gfpLoop
          rw [hl, hr, hres]
        | fail e =>
          rw [hr] at h
          simp at h
      | some np =>
        rcases np with ⟨name, parent⟩
        rw [hl] at h
        by_cases hp5 : parent = 5
        · simp only [if_pos hp5, Option.some.injEq, Prod.mk.injEq] at h
          obtain ⟨hres, hc⟩ := h
          subst hc
          unfold gfpLoop
          rw [hl]
          simp only [if_pos hp5, hres]
        · simp only [if_neg hp5] at h
          by_cases horph : id = parent ∨ parent = 0
          · simp only [if_pos horph, Option.some.injEq, Prod.mk.injEq] at h
            obtain ⟨hres, hc⟩ := h
            subst hc
            unfold gfpLoop
            rw [hl]
            simp only [if_neg hp5, if_pos horph, hres]
          · simp only [if_neg horph] at h
            have hl2 : Cache.lookup c' id = some (some (name, parent)) :=
              gfpLoop_preserves_binding resolve drive n cache parent
                (name :: parts) (.ok res) c' id (name, parent) hl h
            have hrec := ih cache parent (name :: parts) res c' h
            unfold gfpLoop
            rw [hl2]
            simp only [if_neg hp5, if_neg horph]
            exact hrec

/-- Claim C1 as amended (idempotence half): if a `get_file_path` call
terminates successfully with path `path` and cache `c'`, repeating
the call on the resulting parser state returns the same path and
leaves the cache unchanged. -/
theorem get_file_path_repeat (resolve : Nat → ResolveRes)
    (drive : Option Char) (fuel : Nat) (cache : Cache) (entry_id : Nat)
    (path : String) (c' : Cache)
    (h : getFilePath resolve drive fuel cache entry_id =
      some (.ok path, c')) :
    getFilePath resolve drive fuel c' entry_id = some (.ok path, c') := by
  unfold getFilePath at h ⊢
  cases hrun : gfpLoop resolve drive fuel cache entry_id [] with
  | none => rw [hrun] at h; simp at h
  | some rc =>
    rcases rc with ⟨r, c2⟩
    rw [hrun] at h
    cases r with
    | error e => simp [Except.map] at h
    | ok parts =>
      simp only [Option.map_some', Except.map, Option.some.injEq,
        Prod.mk.injEq] at h
      obtain ⟨hpath, hc⟩ := h
      subst hc
      have hidem := gfpLoop_idem resolve drive fuel cache entry_id [] parts
        c2 hrun
      rw [hidem]
      simp only [Option.map_some', Except.map, hpath]

/-- Resolution function of the C1 witness: entry 1 has name `a` and
parent 5 (the root). -/
def c1GoodResolve : Nat → ResolveRes := fun n =>
  if n = 1 then .found "a" 5 else .missingFileName

/-- Witness for the amended claim C1: the walk for entry 1 returns
path `{Root}/a` with cache `[(1, ("a", 5))]`, and rerunning it on
that cache returns the same path and cache. -/
theorem get_file_path_repeat_witness :
    getFilePath c1GoodResolve none 3 [(1, some ("a", 5))] 1 =
      some (.ok "{Root}/a", [(1, some ("a", 5))]) :=
  get_file_path_repeat c1GoodResolve none 3 [] 1 "{Root}/a"
    [(1, some ("a", 5))] rfl

/-- Resolution function of the C1 counterexample: entries 1 and 2
name each other as parents (a parent cycle of length 2, neither
entry 5 nor 0 nor a self-parent). -/
def c1BadResolve : Nat → ResolveRes := fun n =>
  if n = 1 then .found "a" 2
  else if n = 2 then .found "b" 1 else .missingFileName

/-- The cache after both entries of the cycle are resolved. -/
def c1CycleCache : Cache := [(2, some ("b", 1)), (1, some ("a", 2))]

/-- Once the two-cycle is cached, the walk bounces between entries 1
and 2 forever: no amount of fuel finishes it. -/
theorem c1_cycle_loops : ∀ fuel parts,
    gfpLoop c1BadResolve none fuel c1CycleCache 1 parts = none ∧
      gfpLoop c1BadResolve none fuel c1CycleCache 2 parts = none := by
  intro fuel
  induction fuel with
  | zero => intro parts; exact ⟨rfl, rfl⟩
  | succ n ih =>
    intro parts
    exact ⟨(ih ("a" :: parts)).2, (ih ("b" :: parts)).1⟩

/-- From the empty cache, the walk for entry 1 under the two-cycle
resolution never finishes, whatever the fuel. -/
theorem c1_cycle_never_finishes :
    ∀ fuel, gfpLoop c1BadResolve none fuel [] 1 [] = none := by
  intro fuel
  match fuel with
  | 0 => rfl
  | 1 => rfl
  | 2 => rfl
  | n + 3 => exact (c1_cycle_loops n ["a"]).2

/-- Claim C1 counterexample: `get_file_path` does not terminate for
every entry — with a parent cycle of length 2 (entry 1's parent is
entry 2 and vice versa, a configuration the `current == parent` and
`parent == 0/5` guards do not stop), the walk from entry 1 diverges
and visits both entries over and over. -/
theorem get_file_path_cycle_diverges :
    ¬ gfpTerminates c1BadResolve none [] 1 := by
  rintro ⟨fuel, hs⟩
  unfold getFilePath at hs
  rw [c1_cycle_never_finishes fuel] at hs
  simp at hs

end Mft
